import Mathlib

/-!
# Verification of `ThrottleControl` (src/ThrottleCrontol.hxx)

Shallow embedding of the lock-free throttle-control primitive.  Machine
integers (`int64_t`, `uint32_t`, `int`) are modelled as `Int`/`Nat`; the
nanosecond clock `now` is a parameter of each operation.  The atomic
`compare_exchange_weak` operations are modelled as succeeding exactly when
the current value equals the expected value (no spurious failure).

Two models are developed:
* a sequential one (`ThrottleControl.check_`, `ThrottleControl.update_`),
  in which a whole call executes without interference — this matches the
  single-thread behaviour of the C++ code;
* an interleaved small-step one (`ThrottleConc.Step`) in which each atomic
  load / CAS of `update_` is a separate transition and any number of
  threads run concurrently, used for the concurrency claims.

The `assert(false && "Failed to update timestamp")` on the inner-CAS
failure path is modelled as a fatal abort (the semantics of a C `assert`
in a default, non-`NDEBUG` build): the sequential model returns `none`
there, and in the interleaved model the thread enters a terminal `fatal`
state from which no transition exists.
-/

/-- The state of a `ThrottleControl` object (src/ThrottleCrontol.hxx:92-96):
`buffer_size_` is the capacity `tps` (a `uint32_t`), `duration_` the window
length in nanoseconds (an `int64_t`, always `10^9` after construction),
`timestamps_` the ring of `tps` atomic `int64_t` slots, and `index_` the
atomic cursor (initially 0; the code only ever stores values in
`[0, buffer_size_)` into it, so `Nat` is adequate). -/
structure ThrottleControl where
  buffer_size_ : Nat
  duration_ : Int
  timestamps_ : List Int
  index_ : Nat
  deriving DecidableEq, Repr

namespace ThrottleControl

/-- The constructor `ThrottleControl(uint32_t tps)`
(src/ThrottleCrontol.hxx:11-19): throws `std::invalid_argument` when
`tps == 0`, otherwise produces `tps` slots holding 0 (the
value-initialised / explicitly stored timestamp), cursor 0 and a window
of `1000000000` nanoseconds. -/
def construct (tps : Nat) : Except String ThrottleControl :=
  if tps = 0 then
    .error "TPS must be positive"
  else
    .ok { buffer_size_ := tps
          duration_ := 1000000000
          timestamps_ := List.replicate tps 0
          index_ := 0 }

/-- `check_()` (src/ThrottleCrontol.hxx:21-31) with the clock reading
`now` passed explicitly: read the cursor, reduce it mod `buffer_size_`,
read that slot, and return 0 when `now - expected > duration_`, else
`duration_ - (now - expected)`.  It performs no store, which the
embedding reflects by not returning a state. -/
def check_ (tc : ThrottleControl) (now : Int) : Int :=
  let current_index := tc.index_ % tc.buffer_size_
  let expected := tc.timestamps_.getD current_index 0
  if now - expected > tc.duration_ then 0 else tc.duration_ - (now - expected)

/-- One execution of the body of `update_`'s `for` loop together with the
remaining iterations (src/ThrottleCrontol.hxx:39-58), with `fuel` many
iterations left.  Returns `none` on the `assert(false)` path (fatal
abort), otherwise `some (result, new state)`.  Both CAS operations are
modelled as succeeding iff the location holds the expected value; a
failed cursor CAS leaves the state unchanged and retries, and exhausting
all `buffer_size_` iterations returns `duration_`
(src/ThrottleCrontol.hxx:60). -/
def updateLoop (now : Int) : ThrottleControl → Nat → Option (Int × ThrottleControl)
  | tc, 0 => some (tc.duration_, tc)
  | tc, fuel + 1 =>
    let current_index := tc.index_ % tc.buffer_size_
    let expected := tc.timestamps_.getD current_index 0
    if now - expected > tc.duration_ then
      let next_index := (current_index + 1) % tc.buffer_size_
      if tc.index_ = current_index then
        -- cursor CAS succeeded
        if tc.timestamps_.getD current_index 0 = expected then
          -- timestamp CAS succeeded
          some (0, { tc with index_ := next_index
                             timestamps_ := tc.timestamps_.set current_index now })
        else
          -- assert(false && "Failed to update timestamp")
          none
      else
        -- cursor CAS failed: retry the loop
        updateLoop now tc fuel
    else
      some (tc.duration_ - (now - expected), tc)

/-- `update_()` (src/ThrottleCrontol.hxx:33-61) with the clock reading
`now` passed explicitly: run the loop body for up to `buffer_size_`
attempts. -/
def update_ (tc : ThrottleControl) (now : Int) : Option (Int × ThrottleControl) :=
  updateLoop now tc tc.buffer_size_

/-- The state produced by a successful `construct tps`. -/
def fresh (tps : Nat) : ThrottleControl :=
  { buffer_size_ := tps
    duration_ := 1000000000
    timestamps_ := List.replicate tps 0
    index_ := 0 }

/-- A well-formed object state: produced by the constructor and preserved
by the operations — positive capacity, the fixed one-second window, a
slot ring of exactly `buffer_size_` cells, and a cursor below
`buffer_size_`. -/
def Valid (tc : ThrottleControl) : Prop :=
  1 ≤ tc.buffer_size_ ∧ tc.duration_ = 1000000000 ∧
    tc.timestamps_.length = tc.buffer_size_ ∧ tc.index_ < tc.buffer_size_

instance (tc : ThrottleControl) : Decidable tc.Valid := by
  unfold Valid; infer_instance

/-- Run `count` sequential `update_` calls, all at clock reading `now`,
collecting the results in order; `none` if any call aborts. -/
def runUpdates (now : Int) : ThrottleControl → Nat → Option (List Int × ThrottleControl)
  | tc, 0 => some ([], tc)
  | tc, count + 1 =>
    (tc.update_ now).bind fun rt =>
      (runUpdates now rt.2 count).map fun rest => (rt.1 :: rest.1, rest.2)

end ThrottleControl

namespace ThrottleControl

/-- Reading just past a block of `k` copies reads the head of the tail list. -/
theorem getD_replicate_append (k : Nat) (a : Int) (l : List Int) :
    (List.replicate k a ++ l).getD k 0 = l.getD 0 0 := by
  induction k with
  | zero => simp
  | succ n ih => simpa [List.replicate_succ] using ih

/-- Writing just past a block of `k` copies writes the head of the tail list. -/
theorem replicate_append_set (k : Nat) (a b : Int) (l : List Int) :
    (List.replicate k a ++ l).set k b = List.replicate k a ++ l.set 0 b := by
  induction k with
  | zero => simp
  | succ n ih => simp [List.replicate_succ, ih]

/-- Absorbing one more copy into a replicate block. -/
theorem replicate_append_cons (m : Nat) (now : Int) (k : Nat) :
    List.replicate k now ++ (now :: List.replicate m (0 : Int)) =
      List.replicate (k + 1) now ++ List.replicate m 0 := by
  induction k with
  | zero => simp
  | succ n ih => simp only [List.replicate_succ, List.cons_append, ih]

/-- If the cursor is in range and the addressed slot is eligible
(`now - expected > duration_`), `update_` admits on its first loop
iteration: both CAS operations succeed, the slot receives `now` and the
cursor becomes `(index_ + 1) % buffer_size_`. -/
theorem update_admits (tc : ThrottleControl) (now : Int)
    (hidx : tc.index_ < tc.buffer_size_)
    (helig : now - tc.timestamps_.getD tc.index_ 0 > tc.duration_) :
    tc.update_ now = some (0, { tc with
      index_ := (tc.index_ + 1) % tc.buffer_size_
      timestamps_ := tc.timestamps_.set tc.index_ now }) := by
  obtain ⟨m, hm⟩ : ∃ m, tc.buffer_size_ = m + 1 := ⟨tc.buffer_size_ - 1, by omega⟩
  have hmod : tc.index_ % tc.buffer_size_ = tc.index_ := Nat.mod_eq_of_lt hidx
  have hfuel : tc.update_ now = updateLoop now tc (m + 1) := by rw [update_, hm]
  rw [hfuel]
  simp only [updateLoop]
  rw [hmod, if_pos helig, if_pos rfl]
  simp only [if_true]

/-- If the addressed slot is not eligible, `update_` rejects on its first
loop iteration with the wait estimate `duration_ - (now - expected)` and
no state change. -/
theorem update_reject (tc : ThrottleControl) (now : Int)
    (hN : 0 < tc.buffer_size_)
    (h : ¬ now - tc.timestamps_.getD (tc.index_ % tc.buffer_size_) 0 > tc.duration_) :
    tc.update_ now =
      some (tc.duration_ - (now - tc.timestamps_.getD (tc.index_ % tc.buffer_size_) 0), tc) := by
  obtain ⟨m, hm⟩ : ∃ m, tc.buffer_size_ = m + 1 := ⟨tc.buffer_size_ - 1, by omega⟩
  have hfuel : tc.update_ now = updateLoop now tc (m + 1) := by rw [update_, hm]
  rw [hfuel]
  simp only [updateLoop]
  rw [if_neg h]

/-- Any `updateLoop` run with a positive result leaves the state unchanged. -/
theorem updateLoop_pos_eq (now : Int) :
    ∀ (fuel : Nat) (tc : ThrottleControl) (r : Int) (tc' : ThrottleControl),
      updateLoop now tc fuel = some (r, tc') → 0 < r → tc' = tc := by
  intro fuel
  induction fuel with
  | zero =>
    intro tc r tc' h hr
    simp only [updateLoop, Option.some.injEq, Prod.mk.injEq] at h
    exact h.2.symm
  | succ n ih =>
    intro tc r tc' h hr
    by_cases h1 : now - tc.timestamps_.getD (tc.index_ % tc.buffer_size_) 0 > tc.duration_
    · by_cases h2 : tc.index_ = tc.index_ % tc.buffer_size_
      · simp only [updateLoop] at h
        rw [if_pos h1, if_pos h2] at h
        simp only [if_true] at h
        simp only [Option.some.injEq, Prod.mk.injEq] at h
        omega
      · simp only [updateLoop] at h
        rw [if_pos h1, if_neg h2] at h
        exact ih tc r tc' h hr
    · simp only [updateLoop] at h
      rw [if_neg h1] at h
      simp only [Option.some.injEq, Prod.mk.injEq] at h
      exact h.2.symm

end ThrottleControl

namespace ThrottleControl

/-- The claim's (spec §4.2) description of `check_`, sentinel disjunct
included: return 0 when `now - slots[idx] > windowDuration` *or when the
slot still holds the never-claimed sentinel* (the initial slot value, 0
in the code), otherwise `windowDuration - (now - slots[idx])`.  Stated
separately from `check_` so the two can be compared. -/
def checkPerClaim (tc : ThrottleControl) (now : Int) : Int :=
  let idx := tc.index_ % tc.buffer_size_
  let slot := tc.timestamps_.getD idx 0
  if now - slot > tc.duration_ ∨ slot = 0 then 0 else tc.duration_ - (now - slot)

/-- The claim's description of `check_` with the sentinel disjunct
removed — the amendment forced by `claim_C6_counterexample`. -/
def checkPerClaimAmended (tc : ThrottleControl) (now : Int) : Int :=
  let idx := tc.index_ % tc.buffer_size_
  let slot := tc.timestamps_.getD idx 0
  if now - slot > tc.duration_ then 0 else tc.duration_ - (now - slot)

/-- Claim C6 (counterexample): on a fresh capacity-1 object at clock 0 the
slot still holds the never-claimed sentinel, yet `check_` returns
`10^9`, not the 0 the claim requires: the sentinel disjunct is not part
of the code's behaviour. -/
theorem claim_C6_counterexample :
    check_ (fresh 1) 0 = 1000000000 ∧ checkPerClaim (fresh 1) 0 = 0 := by
  constructor <;> decide

/-- Claim C6 (amended): `check_` reads the cursor, computes
`idx = cursor mod N`, reads `slots[idx]`, returns 0 exactly when
`now - slots[idx] > windowDuration` and `windowDuration - (now - slots[idx])`
otherwise (a sentinel slot yields 0 only when `now > windowDuration`);
it is free of side effects — the embedding returns no state. -/
theorem claim_C6_check_matches_spec :
    ∀ (tc : ThrottleControl) (now : Int), check_ tc now = checkPerClaimAmended tc now := by
  intro tc now
  rfl

/-- Claim C8: construction with capacity 0 fails deterministically with
the invalid-argument error and no object; construction with any positive
capacity yields `tps` slots holding the never-claimed initial value 0, a
cursor equal to 0 and a window of `10^9` nanoseconds. -/
theorem claim_C8_constructor :
    construct 0 = Except.error "TPS must be positive" ∧
      ∀ tps : Nat, 1 ≤ tps →
        construct tps = Except.ok { buffer_size_ := tps, duration_ := 1000000000,
                                    timestamps_ := List.replicate tps 0, index_ := 0 } := by
  refine ⟨rfl, fun tps h => ?_⟩
  unfold construct
  rw [if_neg (by omega)]

/-- Closed witness for `claim_C8_constructor` at capacity 3. -/
theorem claim_C8_witness :
    construct 0 = Except.error "TPS must be positive" ∧
      construct 3 = Except.ok { buffer_size_ := 3, duration_ := 1000000000,
                                timestamps_ := List.replicate 3 0, index_ := 0 } :=
  ⟨claim_C8_constructor.1, claim_C8_constructor.2 3 (by decide)⟩

/-- Claim C9: for a fixed state, the wait estimate of the read-only
`check_` is non-increasing in the clock value (`check_` mutates nothing:
its embedding takes the state and returns only the estimate). -/
theorem claim_C9_check_antitone (tc : ThrottleControl) (now1 now2 : Int)
    (h : now1 ≤ now2) : check_ tc now2 ≤ check_ tc now1 := by
  simp only [check_]
  split_ifs <;> omega

/-- Closed witness for `claim_C9_check_antitone` on a fresh capacity-1
object at clocks 0 and 5. -/
theorem claim_C9_witness : check_ (fresh 1) 5 ≤ check_ (fresh 1) 0 :=
  claim_C9_check_antitone (fresh 1) 0 5 (by decide)

/-- Claim C10: an `update_` call that returns a positive value (a
rejection) leaves the whole state — cursor and every slot — unchanged. -/
theorem claim_C10_reject_no_mutation (tc : ThrottleControl) (now r : Int)
    (tc' : ThrottleControl) (h : tc.update_ now = some (r, tc')) (hr : 0 < r) :
    tc' = tc :=
  updateLoop_pos_eq now tc.buffer_size_ tc r tc' h hr

/-- Closed witness for `claim_C10_reject_no_mutation`: a fresh capacity-1
object at clock 0 rejects with wait `10^9` and is unchanged. -/
theorem claim_C10_witness :
    (fresh 1).update_ 0 = some (1000000000, fresh 1) ∧ fresh 1 = fresh 1 :=
  ⟨by decide, claim_C10_reject_no_mutation (fresh 1) 0 1000000000 (fresh 1) (by decide) (by decide)⟩

/-- Claim C3 (counterexample): at the boundary `now - slots[idx] =
duration_` (fresh capacity-1 object, clock exactly `10^9`), `update_`
returns 0 yet admits nothing: the state comes back unchanged, refuting
"returns 0 if and only if it admitted". -/
theorem claim_C3_counterexample :
    (fresh 1).update_ 1000000000 = some (0, fresh 1) := by decide

/-- Claim C4 (counterexample): the slots are initialised to 0, not to a
negative-infinity sentinel: on a fresh capacity-1 object at clock 0 the
very first admission attempt is rejected with wait `10^9`, refuting
"the very first admission attempt on each slot succeeds for every clock
value". -/
theorem claim_C4_counterexample :
    (fresh 1).update_ 0 = some (1000000000, fresh 1) := by decide

/-- Claim C5 (counterexample): on a fresh capacity-1 object the
successful claim stores cursor `(0 + 1) % 1 = 0`, not the read value
plus one: the stored cursor IS reduced modulo `buffer_size_` at write
time. -/
theorem claim_C5_counterexample :
    (fresh 1).update_ (2 * 1000000000) =
      some (0, { buffer_size_ := 1, duration_ := 1000000000,
                 timestamps_ := [2 * 1000000000], index_ := 0 }) := by decide

/-- Claim C1 (counterexample): with capacity 1 and the state reached by
one admission at clock `2·10^9`, a call at clock `3·10^9` sits exactly at
the window boundary: it returns 0 *without changing the state*, so two
consecutive calls at clock `3·10^9` both return 0 — more than `N = 1`
zero-returning calls inside one trailing one-second span. -/
theorem claim_C1_counterexample :
    (fresh 1).update_ (2 * 1000000000) =
        some (0, { buffer_size_ := 1, duration_ := 1000000000,
                   timestamps_ := [2 * 1000000000], index_ := 0 }) ∧
      ThrottleControl.update_
          { buffer_size_ := 1, duration_ := 1000000000,
            timestamps_ := [2 * 1000000000], index_ := 0 } (3 * 1000000000) =
        some (0, { buffer_size_ := 1, duration_ := 1000000000,
                   timestamps_ := [2 * 1000000000], index_ := 0 }) := by
  constructor <;> decide

end ThrottleControl

namespace ThrottleControl

/-- `getD` of `set` at the same in-range position gives the new value. -/
theorem getD_set_self (l : List Int) (i : Nat) (b : Int) (h : i < l.length) :
    (l.set i b).getD i 0 = b := by
  simp [List.getD_eq_getElem?_getD, List.getElem?_set_self, h]

/-- Claim C3 (amended): every `update_` result is non-negative; on a
valid state a return of 0 means either an actual admission (the state
was mutated: the claimed slot now holds `now` and the cursor advanced)
or a boundary rejection whose wait estimate `duration_ - (now -
slots[idx])` is exactly 0; every positive return is a rejection that
mutates nothing (`claim_C10_reject_no_mutation`). -/
theorem claim_C3_result_contract (tc : ThrottleControl) (now r : Int)
    (tc' : ThrottleControl) (hv : tc.Valid) (h : tc.update_ now = some (r, tc')) :
    0 ≤ r ∧ (r = 0 ↔ (tc' ≠ tc ∨
      now - tc.timestamps_.getD (tc.index_ % tc.buffer_size_) 0 = tc.duration_)) := by
  obtain ⟨hN, hdur, hlen, hidx⟩ := hv
  have hmod : tc.index_ % tc.buffer_size_ = tc.index_ := Nat.mod_eq_of_lt hidx
  rw [hmod]
  by_cases helig : now - tc.timestamps_.getD tc.index_ 0 > tc.duration_
  · rw [update_admits tc now hidx helig] at h
    simp only [Option.some.injEq, Prod.mk.injEq] at h
    obtain ⟨hr, htc⟩ := h
    refine ⟨by omega, ⟨fun _ => Or.inl ?_, fun _ => hr.symm⟩⟩
    intro heq
    rw [← htc] at heq
    have hts : tc.timestamps_.set tc.index_ now = tc.timestamps_ :=
      congrArg ThrottleControl.timestamps_ heq
    have hget : tc.timestamps_.getD tc.index_ 0 = now := by
      rw [← hts]
      exact getD_set_self _ _ _ (by omega)
    omega
  · have hrej := update_reject tc now (by omega) (by rw [hmod]; exact helig)
    rw [hmod] at hrej
    rw [h] at hrej
    simp only [Option.some.injEq, Prod.mk.injEq] at hrej
    obtain ⟨hr, htc⟩ := hrej
    subst htc
    refine ⟨by omega, ⟨fun h0 => Or.inr (by omega), ?_⟩⟩
    rintro (hne | hb)
    · exact absurd rfl hne
    · omega

/-- Closed witness for `claim_C3_result_contract`: the boundary call of
`claim_C3_counterexample` satisfies the amended contract through the
right-hand disjunct. -/
theorem claim_C3_witness :
    0 ≤ (0 : Int) ∧ ((0 : Int) = 0 ↔ (fresh 1 ≠ fresh 1 ∨
      (1000000000 : Int) - (fresh 1).timestamps_.getD ((fresh 1).index_ % (fresh 1).buffer_size_) 0 =
        (fresh 1).duration_)) :=
  claim_C3_result_contract (fresh 1) 1000000000 0 (fresh 1) (by decide) (by decide)

/-- Claim C5 (amended): a successful claim (return 0 with an actual state
change) advances the stored cursor from its read value `c` to
`(c + 1) % buffer_size_` — the reduction modulo `N` happens at write
time, so the stored cursor never leaves `[0, buffer_size_)` and cannot
grow without bound. -/
theorem claim_C5_cursor_wraps (tc : ThrottleControl) (now : Int)
    (tc' : ThrottleControl) (hv : tc.Valid) (h : tc.update_ now = some (0, tc'))
    (hch : tc' ≠ tc) :
    tc'.index_ = (tc.index_ + 1) % tc.buffer_size_ ∧ tc'.index_ < tc.buffer_size_ := by
  obtain ⟨hN, hdur, hlen, hidx⟩ := hv
  have hmod : tc.index_ % tc.buffer_size_ = tc.index_ := Nat.mod_eq_of_lt hidx
  by_cases helig : now - tc.timestamps_.getD tc.index_ 0 > tc.duration_
  · rw [update_admits tc now hidx helig] at h
    simp only [Option.some.injEq, Prod.mk.injEq, true_and] at h
    subst h
    exact ⟨rfl, Nat.mod_lt _ (by omega)⟩
  · have hrej := update_reject tc now (by omega) (by rw [hmod]; exact helig)
    rw [h] at hrej
    simp only [Option.some.injEq, Prod.mk.injEq] at hrej
    exact absurd hrej.2 hch

/-- Closed witness for `claim_C5_cursor_wraps`: the first admission on a
fresh capacity-2 object at clock `2·10^9` stores cursor `(0+1) % 2 = 1`. -/
theorem claim_C5_witness :
    ({ buffer_size_ := 2, duration_ := 1000000000,
       timestamps_ := [2 * 1000000000, 0], index_ := 1 } : ThrottleControl).index_ =
        ((fresh 2).index_ + 1) % (fresh 2).buffer_size_ ∧
      ({ buffer_size_ := 2, duration_ := 1000000000,
         timestamps_ := [2 * 1000000000, 0], index_ := 1 } : ThrottleControl).index_ <
        (fresh 2).buffer_size_ :=
  claim_C5_cursor_wraps (fresh 2) (2 * 1000000000) _ (by decide) (by decide) (by decide)

end ThrottleControl

namespace ThrottleControl

/-- Unfolding lemma: zero calls. -/
theorem runUpdates_zero (now : Int) (tc : ThrottleControl) :
    runUpdates now tc 0 = some ([], tc) := rfl

/-- Unfolding lemma: one more call. -/
theorem runUpdates_succ (now : Int) (tc : ThrottleControl) (count : Nat) :
    runUpdates now tc (count + 1) =
      (tc.update_ now).bind fun rt =>
        (runUpdates now rt.2 count).map fun rest => (rt.1 :: rest.1, rest.2) := rfl

/-- The object state after the first `k` admissions, all at clock `now`,
on a freshly constructed capacity-`tps` object: the first `k` slots hold
`now`, the rest still hold the initial 0, and the cursor is `k % tps`. -/
def afterAdmits (tps k : Nat) (now : Int) : ThrottleControl :=
  { buffer_size_ := tps
    duration_ := 1000000000
    timestamps_ := List.replicate k now ++ List.replicate (tps - k) 0
    index_ := k % tps }

/-- Zero admissions: the fresh object itself. -/
theorem afterAdmits_zero (tps : Nat) (now : Int) : afterAdmits tps 0 now = fresh tps := by
  simp [afterAdmits, fresh]

/-- One more admission: with `k < tps` admissions made and the clock past
the window (`now > 10^9`), the next `update_` admits into slot `k`. -/
theorem update_afterAdmits (tps k : Nat) (now : Int) (hk : k < tps)
    (hnow : 1000000000 < now) :
    (afterAdmits tps k now).update_ now = some (0, afterAdmits tps (k + 1) now) := by
  have hkk : k % tps = k := Nat.mod_eq_of_lt hk
  obtain ⟨m, hm⟩ : ∃ m, tps - k = m + 1 := ⟨tps - k - 1, by omega⟩
  have hm2 : tps - (k + 1) = m := by omega
  have hidx : (afterAdmits tps k now).index_ < (afterAdmits tps k now).buffer_size_ := by
    simpa [afterAdmits, hkk] using hk
  have hget : (afterAdmits tps k now).timestamps_.getD (afterAdmits tps k now).index_ 0 = 0 := by
    simp only [afterAdmits, hkk]
    rw [getD_replicate_append, hm]
    simp [List.replicate_succ]
  have helig : now - (afterAdmits tps k now).timestamps_.getD (afterAdmits tps k now).index_ 0 >
      (afterAdmits tps k now).duration_ := by
    rw [hget]
    simp only [afterAdmits]
    omega
  have hts : ((afterAdmits tps k now).timestamps_.set (afterAdmits tps k now).index_ now) =
      List.replicate (k + 1) now ++ List.replicate (tps - (k + 1)) (0 : Int) := by
    simp only [afterAdmits, hkk]
    rw [hm, hm2, replicate_append_set]
    simp only [List.replicate_succ, List.set_cons_zero]
    exact replicate_append_cons m now k
  have hix : ((afterAdmits tps k now).index_ + 1) % (afterAdmits tps k now).buffer_size_ =
      (k + 1) % tps := by
    simp only [afterAdmits, hkk]
  rw [update_admits _ now hidx helig, hts, hix]
  rfl

/-- Running `m` further calls from the `k`-admissions state (with
`k + m ≤ tps` and the clock past the window) admits every time. -/
theorem runUpdates_afterAdmits (tps : Nat) (now : Int) (hnow : 1000000000 < now) :
    ∀ (m k : Nat), k + m ≤ tps →
      runUpdates now (afterAdmits tps k now) m =
        some (List.replicate m 0, afterAdmits tps (k + m) now) := by
  intro m
  induction m with
  | zero =>
    intro k h
    simp [runUpdates_zero]
  | succ n ih =>
    intro k h
    have hk : k < tps := by omega
    rw [runUpdates_succ, update_afterAdmits tps k now hk hnow]
    simp only [Option.some_bind]
    rw [ih (k + 1) (by omega)]
    have h2 : k + 1 + n = k + (n + 1) := by omega
    rw [h2]
    rfl

/-- After a full round of `tps` admissions at clock `now`, the cursor is
back at slot 0, which holds `now`: the next call is a rejection with
wait estimate exactly `duration_`. -/
theorem update_afterAdmits_full (tps : Nat) (now : Int) (h1 : 1 ≤ tps) :
    (afterAdmits tps tps now).update_ now = some (1000000000, afterAdmits tps tps now) := by
  obtain ⟨m, hm⟩ : ∃ m, tps = m + 1 := ⟨tps - 1, by omega⟩
  have hmod : (afterAdmits tps tps now).index_ % (afterAdmits tps tps now).buffer_size_ = 0 := by
    simp [afterAdmits, Nat.mod_self]
  have hget : (afterAdmits tps tps now).timestamps_.getD 0 0 = now := by
    simp only [afterAdmits, Nat.sub_self]
    rw [hm]
    simp [List.replicate_succ]
  have hrej := update_reject (afterAdmits tps tps now) now (by simpa [afterAdmits] using h1)
    (by rw [hmod, hget]; simp only [afterAdmits]; omega)
  rw [hmod, hget] at hrej
  rw [hrej]
  have : (afterAdmits tps tps now).duration_ - (now - now) = 1000000000 := by
    simp only [afterAdmits]
    omega
  rw [this]

/-- Claim C4 (amended): the slots are initialised to 0 — the code's
never-claimed value — so whenever the clock reading exceeds the window
duration (`now > 10^9`, true for any realistic clock), the very first
admission attempt on each of the `tps` slots of a fresh object succeeds:
`tps` sequential calls all return 0. -/
theorem claim_C4_first_round_admits (tps : Nat) (now : Int) (_h1 : 1 ≤ tps)
    (hnow : 1000000000 < now) :
    (runUpdates now (fresh tps) tps).map Prod.fst = some (List.replicate tps 0) := by
  rw [← afterAdmits_zero tps now]
  rw [runUpdates_afterAdmits tps now hnow tps 0 (by omega)]
  rfl

/-- Closed witness for `claim_C4_first_round_admits` at capacity 2 and
clock `2·10^9`. -/
theorem claim_C4_witness :
    (runUpdates (2 * 1000000000) (fresh 2) 2).map Prod.fst = some (List.replicate 2 0) :=
  claim_C4_first_round_admits 2 (2 * 1000000000) (by decide) (by decide)

/-- Claim C2: on a fresh capacity-`tps` object (`tps ≥ 1`) with the clock
past the window (`now > 10^9`), `tps` immediate sequential `update_`
calls each return 0 and the `(tps+1)`-th returns the positive value
`duration_ = 10^9`. -/
theorem claim_C2_sequential_budget (tps : Nat) (now : Int) (h1 : 1 ≤ tps)
    (hnow : 1000000000 < now) :
    (runUpdates now (fresh tps) (tps + 1)).map Prod.fst =
      some (List.replicate tps 0 ++ [1000000000]) := by
  have hsplit : ∀ (m k : Nat), k + m = tps →
      runUpdates now (afterAdmits tps k now) (m + 1) =
        some (List.replicate m 0 ++ [1000000000], afterAdmits tps tps now) := by
    intro m
    induction m with
    | zero =>
      intro k h
      have hk : k = tps := by omega
      rw [hk, runUpdates_succ, update_afterAdmits_full tps now h1]
      simp only [Option.some_bind, runUpdates_zero]
      rfl
    | succ n ih =>
      intro k h
      have hk : k < tps := by omega
      rw [runUpdates_succ, update_afterAdmits tps k now hk hnow]
      simp only [Option.some_bind]
      rw [ih (k + 1) (by omega)]
      rfl
  rw [← afterAdmits_zero tps now, hsplit tps 0 (by omega)]
  rfl

/-- Closed witness for `claim_C2_sequential_budget` at capacity 5 and
clock `2·10^9`: five admissions, then a `10^9` rejection. -/
theorem claim_C2_witness :
    (runUpdates (2 * 1000000000) (fresh 5) 6).map Prod.fst =
      some (List.replicate 5 0 ++ [1000000000]) :=
  claim_C2_sequential_budget 5 (2 * 1000000000) (by decide) (by decide)

end ThrottleControl

namespace ThrottleConc

/-- The program counter of one thread executing `update_`
(src/ThrottleCrontol.hxx:33-61), between the atomic accesses.  `now` is
the clock value the call read on entry (line 35), `attempt` the loop
counter.  `start`: about to load the cursor (line 40); `loadedCursor`:
holds `ci = cursor % N` (line 40), about to load the slot (line 42);
`loadedSlot`: also holds the loaded `expected`, about to test
eligibility and attempt the cursor CAS (lines 44-47); `casOk`: the
cursor CAS succeeded, about to attempt the timestamp CAS (line 48);
`done r`: the call returned `r`; `fatal`: the
`assert(false && "Failed to update timestamp")` path (line 52). -/
inductive TState where
  | start (now : Int) (attempt : Nat)
  | loadedCursor (now : Int) (attempt : Nat) (ci : Nat)
  | loadedSlot (now : Int) (attempt : Nat) (ci : Nat) (expected : Int)
  | casOk (now : Int) (attempt : Nat) (ci : Nat) (expected : Int)
  | done (now : Int) (ret : Int)
  | fatal (now : Int)
  deriving DecidableEq, Repr

/-- A configuration of the whole system: the shared atomic state
(`cursor` = `index_`, `slots` = `timestamps_`), one local state per
running thread, and a ghost `log` recording, in order, each successful
timestamp CAS as the pair (slot index, written clock value) — i.e. the
admissions. -/
structure Config where
  cursor : Nat
  slots : List Int
  threads : List TState
  log : List (Nat × Int)
  deriving DecidableEq, Repr

/-- One atomic step of thread `i` under capacity `N` and window `D`,
following `update_` line by line.  Each constructor is one atomic shared
access (or a pure local transition): loading the cursor (line 40),
loading the slot (line 42), the ineligibility early return (line 56),
the cursor `compare_exchange_weak` (lines 46-47, succeeding iff the
cursor equals the read value, modelled without spurious failure), the
retry / loop-exhaustion paths (lines 39, 60), the timestamp
`compare_exchange_weak` (line 48) and the `assert(false)` path (line
52), which makes the thread `fatal` — no rule steps a `fatal` or `done`
thread. -/
inductive Step (N : Nat) (D : Int) : Config → Nat → Config → Prop where
  | loadCursor (c : Config) (i : Nat) (now : Int) (a : Nat)
      (ht : c.threads[i]? = some (.start now a)) (ha : a < N) :
      Step N D c i { c with threads := c.threads.set i (.loadedCursor now a (c.cursor % N)) }
  | startExhaust (c : Config) (i : Nat) (now : Int) (a : Nat)
      (ht : c.threads[i]? = some (.start now a)) (ha : ¬ a < N) :
      Step N D c i { c with threads := c.threads.set i (.done now D) }
  | loadSlot (c : Config) (i : Nat) (now : Int) (a ci : Nat)
      (ht : c.threads[i]? = some (.loadedCursor now a ci)) :
      Step N D c i { c with threads := c.threads.set i (.loadedSlot now a ci (c.slots.getD ci 0)) }
  | notEligible (c : Config) (i : Nat) (now : Int) (a ci : Nat) (e : Int)
      (ht : c.threads[i]? = some (.loadedSlot now a ci e)) (h : ¬ now - e > D) :
      Step N D c i { c with threads := c.threads.set i (.done now (D - (now - e))) }
  | casCursorOk (c : Config) (i : Nat) (now : Int) (a ci : Nat) (e : Int)
      (ht : c.threads[i]? = some (.loadedSlot now a ci e)) (h : now - e > D)
      (hcas : c.cursor = ci) :
      Step N D c i { c with cursor := (ci + 1) % N,
                            threads := c.threads.set i (.casOk now a ci e) }
  | casCursorFailRetry (c : Config) (i : Nat) (now : Int) (a ci : Nat) (e : Int)
      (ht : c.threads[i]? = some (.loadedSlot now a ci e)) (h : now - e > D)
      (hcas : c.cursor ≠ ci) (hat : a + 1 < N) :
      Step N D c i { c with threads := c.threads.set i (.start now (a + 1)) }
  | casCursorFailExhaust (c : Config) (i : Nat) (now : Int) (a ci : Nat) (e : Int)
      (ht : c.threads[i]? = some (.loadedSlot now a ci e)) (h : now - e > D)
      (hcas : c.cursor ≠ ci) (hat : ¬ a + 1 < N) :
      Step N D c i { c with threads := c.threads.set i (.done now D) }
  | casSlotOk (c : Config) (i : Nat) (now : Int) (a ci : Nat) (e : Int)
      (ht : c.threads[i]? = some (.casOk now a ci e)) (hcas : c.slots.getD ci 0 = e) :
      Step N D c i { c with slots := c.slots.set ci now,
                            threads := c.threads.set i (.done now 0),
                            log := c.log ++ [(ci, now)] }
  | casSlotFail (c : Config) (i : Nat) (now : Int) (a ci : Nat) (e : Int)
      (ht : c.threads[i]? = some (.casOk now a ci e)) (hcas : c.slots.getD ci 0 ≠ e) :
      Step N D c i { c with threads := c.threads.set i (.fatal now) }

/-- The initial configuration: a freshly constructed object (slots all 0,
cursor 0) and one thread per entry of `nows`, each about to run
`update_` with that clock reading.  Arbitrary `nows` model any number of
concurrent callers with arbitrary (even non-monotone) clock readings. -/
def init (N : Nat) (nows : List Int) : Config :=
  { cursor := 0
    slots := List.replicate N 0
    threads := nows.map (fun n => .start n 0)
    log := [] }

/-- Reachability by any interleaving: the reflexive-transitive closure of
steps by arbitrary threads. -/
def Reachable (N : Nat) (D : Int) : Config → Config → Prop :=
  Relation.ReflTransGen (fun x y => ∃ i, Step N D x i y)

/-- Claim C7: if a thread's inner timestamp CAS fails after its paired
cursor CAS succeeded (it is in `casOk` but the slot no longer holds its
expected value), its one possible step is the `assert(false)` transition
to `fatal`, which changes no shared state, appends no admission and
returns no result; and a `fatal` thread never steps again — the path is
neither silently retried nor ignored and never returns a result to the
caller. -/
theorem claim_C7_inner_cas_failure_fatal (N : Nat) (D : Int) :
    (∀ (c c' : Config) (i : Nat) (now : Int) (a ci : Nat) (e : Int),
      c.threads[i]? = some (.casOk now a ci e) → c.slots.getD ci 0 ≠ e →
      Step N D c i c' →
        c'.threads = c.threads.set i (.fatal now) ∧ c'.slots = c.slots ∧
          c'.cursor = c.cursor ∧ c'.log = c.log) ∧
    (∀ (c c' : Config) (i : Nat) (now : Int),
      c.threads[i]? = some (.fatal now) → ¬ Step N D c i c') := by
  constructor
  · intro c c' i now a ci e ht hne hstep
    cases hstep with
    | loadCursor now' a' ht' ha' => rw [ht] at ht'; cases ht'
    | startExhaust now' a' ht' ha' => rw [ht] at ht'; cases ht'
    | loadSlot now' a' ci' ht' => rw [ht] at ht'; cases ht'
    | notEligible now' a' ci' e' ht' h' => rw [ht] at ht'; cases ht'
    | casCursorOk now' a' ci' e' ht' h' hcas' => rw [ht] at ht'; cases ht'
    | casCursorFailRetry now' a' ci' e' ht' h' hcas' hat' => rw [ht] at ht'; cases ht'
    | casCursorFailExhaust now' a' ci' e' ht' h' hcas' hat' => rw [ht] at ht'; cases ht'
    | casSlotOk now' a' ci' e' ht' hcas' =>
      rw [ht] at ht'
      cases ht'
      exact absurd hcas' hne
    | casSlotFail now' a' ci' e' ht' hcas' =>
      rw [ht] at ht'
      cases ht'
      exact ⟨rfl, rfl, rfl, rfl⟩
  · intro c c' i now ht hstep
    cases hstep with
    | loadCursor now' a' ht' ha' => rw [ht] at ht'; cases ht'
    | startExhaust now' a' ht' ha' => rw [ht] at ht'; cases ht'
    | loadSlot now' a' ci' ht' => rw [ht] at ht'; cases ht'
    | notEligible now' a' ci' e' ht' h' => rw [ht] at ht'; cases ht'
    | casCursorOk now' a' ci' e' ht' h' hcas' => rw [ht] at ht'; cases ht'
    | casCursorFailRetry now' a' ci' e' ht' h' hcas' hat' => rw [ht] at ht'; cases ht'
    | casCursorFailExhaust now' a' ci' e' ht' h' hcas' hat' => rw [ht] at ht'; cases ht'
    | casSlotOk now' a' ci' e' ht' hcas' => rw [ht] at ht'; cases ht'
    | casSlotFail now' a' ci' e' ht' hcas' => rw [ht] at ht'; cases ht'

end ThrottleConc

namespace ThrottleConc

/-- Looking up position `j` after setting position `i`: either it is the
new value (at `i`, in bounds) or the original lookup. -/
theorem getElem?_set_lookup {α : Type} (l : List α) (i j : Nat) (v w : α)
    (h : (l.set i v)[j]? = some w) : (i = j ∧ w = v) ∨ l[j]? = some w := by
  by_cases hij : i = j
  · subst hij
    by_cases hl : i < l.length
    · rw [List.getElem?_set_self (by simpa using hl)] at h
      cases h
      exact Or.inl ⟨rfl, rfl⟩
    · rw [List.set_eq_of_length_le (by omega)] at h
      exact Or.inr h
  · rw [List.getElem?_set_ne hij] at h
    exact Or.inr h

/-- The admissions recorded in the log whose written clock value lies in
the trailing span `(t - D, t]`. -/
def spanLog (t D : Int) (log : List (Nat × Int)) : List (Nat × Int) :=
  log.filter fun p => decide (t - D < p.2) && decide (p.2 ≤ t)

/-- The inductive invariant of the interleaved system: the ring has `N`
slots; the cursor stays below `N`; a thread holding a successful cursor
CAS (`casOk`) saw an eligible slot (`now - expected > D`) at an index
below `N`; every logged admission is dominated by the current value of
its slot and indexes a real slot; and two admissions into the same slot
are always more than `D` apart (in log order). -/
structure SysInv (N : Nat) (D : Int) (c : Config) : Prop where
  slots_len : c.slots.length = N
  cursor_lt : c.cursor < N
  casOk_elig : ∀ (i : Nat) (now : Int) (a ci : Nat) (e : Int),
    c.threads[i]? = some (TState.casOk now a ci e) → now - e > D
  casOk_ci : ∀ (i : Nat) (now : Int) (a ci : Nat) (e : Int),
    c.threads[i]? = some (TState.casOk now a ci e) → ci < N
  log_le_slot : ∀ ci n, (ci, n) ∈ c.log → n ≤ c.slots.getD ci 0
  log_idx : ∀ ci n, (ci, n) ∈ c.log → ci < N
  log_gaps : c.log.Pairwise (fun p q => p.1 = q.1 → p.2 + D < q.2)

/-- Replacing a thread's state by anything that is not `casOk` (and
touching nothing else) preserves the invariant. -/
theorem SysInv.setThread {N : Nat} {D : Int} {c : Config} (hinv : SysInv N D c)
    (i : Nat) (v : TState)
    (hv : ∀ (now : Int) (a ci : Nat) (e : Int), v ≠ TState.casOk now a ci e) :
    SysInv N D { c with threads := c.threads.set i v } := by
  refine ⟨hinv.slots_len, hinv.cursor_lt, ?_, ?_, hinv.log_le_slot, hinv.log_idx, hinv.log_gaps⟩
  · intro j now a ci e hj
    rcases getElem?_set_lookup _ _ _ _ _ hj with ⟨-, hw⟩ | hold
    · exact absurd hw.symm (hv now a ci e)
    · exact hinv.casOk_elig j now a ci e hold
  · intro j now a ci e hj
    rcases getElem?_set_lookup _ _ _ _ _ hj with ⟨-, hw⟩ | hold
    · exact absurd hw.symm (hv now a ci e)
    · exact hinv.casOk_ci j now a ci e hold

/-- The invariant holds in any initial configuration (positive capacity). -/
theorem SysInv.initial (N : Nat) (D : Int) (nows : List Int) (hN : 0 < N) :
    SysInv N D (init N nows) := by
  refine ⟨by simp [init], hN, ?_, ?_, ?_, ?_, ?_⟩
  · intro i now a ci e h
    simp only [init, List.getElem?_map] at h
    cases hn : nows[i]? with
    | none => rw [hn] at h; cases h
    | some x => rw [hn] at h; cases h
  · intro i now a ci e h
    simp only [init, List.getElem?_map] at h
    cases hn : nows[i]? with
    | none => rw [hn] at h; cases h
    | some x => rw [hn] at h; cases h
  · intro ci n h
    simp [init] at h
  · intro ci n h
    simp [init] at h
  · simp [init]

/-- One step preserves the invariant (capacity positive, window
non-negative). -/
theorem SysInv.step {N : Nat} {D : Int} {c c' : Config} {i : Nat}
    (hN : 0 < N) (hD : 0 ≤ D) (hinv : SysInv N D c) (hstep : Step N D c i c') :
    SysInv N D c' := by
  cases hstep with
  | loadCursor now a ht ha =>
    exact hinv.setThread i _ (fun _ _ _ _ => by intro h; cases h)
  | startExhaust now a ht ha =>
    exact hinv.setThread i _ (fun _ _ _ _ => by intro h; cases h)
  | loadSlot now a ci ht =>
    exact hinv.setThread i _ (fun _ _ _ _ => by intro h; cases h)
  | notEligible now a ci e ht h =>
    exact hinv.setThread i _ (fun _ _ _ _ => by intro h; cases h)
  | casCursorFailRetry now a ci e ht h hcas hat =>
    exact hinv.setThread i _ (fun _ _ _ _ => by intro h; cases h)
  | casCursorFailExhaust now a ci e ht h hcas hat =>
    exact hinv.setThread i _ (fun _ _ _ _ => by intro h; cases h)
  | casSlotFail now a ci e ht hcas =>
    exact hinv.setThread i _ (fun _ _ _ _ => by intro h; cases h)
  | casCursorOk now a ci e ht h hcas =>
    refine ⟨hinv.slots_len, Nat.mod_lt _ hN, ?_, ?_, hinv.log_le_slot, hinv.log_idx, hinv.log_gaps⟩
    · intro j now' a' ci' e' hj
      rcases getElem?_set_lookup _ _ _ _ _ hj with ⟨-, hw⟩ | hold
      · cases hw
        exact h
      · exact hinv.casOk_elig j now' a' ci' e' hold
    · intro j now' a' ci' e' hj
      rcases getElem?_set_lookup _ _ _ _ _ hj with ⟨-, hw⟩ | hold
      · cases hw
        exact hcas ▸ hinv.cursor_lt
      · exact hinv.casOk_ci j now' a' ci' e' hold
  | casSlotOk now a ci e ht hcas =>
    have helig : now - e > D := hinv.casOk_elig i now a ci e ht
    have hci : ci < N := hinv.casOk_ci i now a ci e ht
    have hcilen : ci < c.slots.length := by rw [hinv.slots_len]; exact hci
    have hgetset : (c.slots.set ci now).getD ci 0 = now := by
      simp [List.getD_eq_getElem?_getD, List.getElem?_set_self (by simpa using hcilen)]
    refine ⟨?_, hinv.cursor_lt, ?_, ?_, ?_, ?_, ?_⟩
    · simpa using hinv.slots_len
    · intro j now' a' ci' e' hj
      rcases getElem?_set_lookup _ _ _ _ _ hj with ⟨-, hw⟩ | hold
      · cases hw
      · exact hinv.casOk_elig j now' a' ci' e' hold
    · intro j now' a' ci' e' hj
      rcases getElem?_set_lookup _ _ _ _ _ hj with ⟨-, hw⟩ | hold
      · cases hw
      · exact hinv.casOk_ci j now' a' ci' e' hold
    · intro cj n hmem
      rcases List.mem_append.mp hmem with hold | hnew
      · have hle := hinv.log_le_slot cj n hold
        by_cases hcj : cj = ci
        · subst hcj
          rw [hgetset]
          rw [hcas] at hle
          omega
        · have : (c.slots.set ci now).getD cj 0 = c.slots.getD cj 0 := by
            simp [List.getD_eq_getElem?_getD, List.getElem?_set_ne (fun hx => hcj hx.symm)]
          rw [this]
          exact hle
      · simp only [List.mem_singleton, Prod.mk.injEq] at hnew
        obtain ⟨rfl, rfl⟩ := hnew
        rw [hgetset]
    · intro cj n hmem
      rcases List.mem_append.mp hmem with hold | hnew
      · exact hinv.log_idx cj n hold
      · simp only [List.mem_singleton, Prod.mk.injEq] at hnew
        exact hnew.1 ▸ hci
    · refine List.pairwise_append.mpr ⟨hinv.log_gaps, List.pairwise_singleton _ _, ?_⟩
      intro p hp q hq hkey
      simp only [List.mem_singleton] at hq
      subst hq
      have hle := hinv.log_le_slot p.1 p.2 (by simpa using hp)
      rw [hkey, hcas] at hle
      omega

/-- The invariant holds in every reachable configuration. -/
theorem SysInv.reachable {N : Nat} {D : Int} {c0 c : Config}
    (hN : 0 < N) (hD : 0 ≤ D) (hinv : SysInv N D c0) (h : Reachable N D c0 c) :
    SysInv N D c := by
  induction h with
  | refl => exact hinv
  | tail hsteps hstep ih =>
    obtain ⟨i, hi⟩ := hstep
    exact SysInv.step hN hD ih hi

end ThrottleConc

namespace ThrottleConc

/-- Counting: under the invariant, at most `N` logged admissions fall in
any trailing span `(t - D, t]` — per slot the admission times are more
than `D` apart, so each of the `N` slots contributes at most one. -/
theorem spanLog_length_le {N : Nat} {D : Int} {c : Config}
    (hinv : SysInv N D c) (t : Int) : (spanLog t D c.log).length ≤ N := by
  classical
  have hpair : (spanLog t D c.log).Pairwise (fun p q => p.1 = q.1 → p.2 + D < q.2) :=
    hinv.log_gaps.sublist (List.filter_sublist _)
  have hmemS : ∀ p ∈ spanLog t D c.log, t - D < p.2 ∧ p.2 ≤ t := by
    intro p hp
    have := List.mem_filter.mp hp
    simpa using this.2
  have hneq : (spanLog t D c.log).Pairwise (fun p q => p.1 ≠ q.1) := by
    refine List.Pairwise.imp_of_mem ?_ hpair
    intro p q hp hq hR hpq
    have h1 := hmemS p hp
    have h2 := hmemS q hq
    have := hR hpq
    omega
  have hnd : ((spanLog t D c.log).map Prod.fst).Nodup := (List.pairwise_map).mpr hneq
  have hlt : ∀ x ∈ (spanLog t D c.log).map Prod.fst, x < N := by
    intro x hx
    obtain ⟨p, hp, rfl⟩ := List.mem_map.mp hx
    exact hinv.log_idx p.1 p.2 (by simpa using List.mem_of_mem_filter hp)
  have hcard : ((spanLog t D c.log).map Prod.fst).length ≤ N := by
    have h1 : ((spanLog t D c.log).map Prod.fst).toFinset.card =
        ((spanLog t D c.log).map Prod.fst).length := List.toFinset_card_of_nodup hnd
    have h2 : ((spanLog t D c.log).map Prod.fst).toFinset ⊆ Finset.range N := by
      intro x hx
      simp only [List.mem_toFinset] at hx
      exact Finset.mem_range.mpr (hlt x hx)
    have := Finset.card_le_card h2
    simpa [h1, Finset.card_range] using this
  simpa using hcard

/-- Claim C1 (amended): for every capacity `N ≥ 1` and window `D ≥ 0`,
under any interleaving of any number of concurrent `update_` callers
(each with an arbitrary clock reading), at most `N` *admissions* — calls
that return 0 by actually claiming a slot, i.e. whose timestamp CAS
succeeded — carry clock values inside any trailing span `(t - D, t]`.
The bound holds for the zero-returns that claim a slot; it does NOT hold
for zero-returns as such, because a call whose wait estimate is exactly
0 also returns 0 without claiming anything
(`claim_C1_counterexample`). -/
theorem claim_C1_window_budget (N : Nat) (D : Int) (nows : List Int)
    (c : Config) (t : Int) (hN : 0 < N) (hD : 0 ≤ D)
    (hreach : Reachable N D (init N nows) c) :
    (spanLog t D c.log).length ≤ N :=
  spanLog_length_le (SysInv.reachable hN hD (SysInv.initial N D nows hN) hreach) t

/-- Closed witness for `claim_C1_window_budget`: a four-step interleaved
execution with capacity 1 in which one caller at clock `2·10^9 + 1`
loads the cursor, loads the slot, wins the cursor CAS and wins the
timestamp CAS — one admission is logged, and the span count is bounded
by `N = 1`. -/
theorem claim_C1_witness :
    (spanLog 2000000001 1000000000 [((0 : Nat), (2000000001 : Int))]).length ≤ 1 := by
  have s1 : Step 1 1000000000 (init 1 [2000000001]) 0
      { cursor := 0, slots := [0],
        threads := [TState.loadedCursor 2000000001 0 0], log := [] } :=
    Step.loadCursor (init 1 [2000000001]) 0 2000000001 0 (by decide) (by decide)
  have s2 : Step 1 1000000000
      { cursor := 0, slots := [0],
        threads := [TState.loadedCursor 2000000001 0 0], log := [] } 0
      { cursor := 0, slots := [0],
        threads := [TState.loadedSlot 2000000001 0 0 0], log := [] } :=
    Step.loadSlot _ 0 2000000001 0 0 (by decide)
  have s3 : Step 1 1000000000
      { cursor := 0, slots := [0],
        threads := [TState.loadedSlot 2000000001 0 0 0], log := [] } 0
      { cursor := 0, slots := [0],
        threads := [TState.casOk 2000000001 0 0 0], log := [] } :=
    Step.casCursorOk _ 0 2000000001 0 0 0 (by decide) (by decide) (by decide)
  have s4 : Step 1 1000000000
      { cursor := 0, slots := [0],
        threads := [TState.casOk 2000000001 0 0 0], log := [] } 0
      { cursor := 0, slots := [2000000001],
        threads := [TState.done 2000000001 0], log := [(0, 2000000001)] } :=
    Step.casSlotOk _ 0 2000000001 0 0 0 (by decide) (by decide)
  have hreach : Reachable 1 1000000000 (init 1 [2000000001])
      { cursor := 0, slots := [2000000001],
        threads := [TState.done 2000000001 0], log := [(0, 2000000001)] } :=
    Relation.ReflTransGen.tail (Relation.ReflTransGen.tail (Relation.ReflTransGen.tail
      (Relation.ReflTransGen.single ⟨0, s1⟩) ⟨0, s2⟩) ⟨0, s3⟩) ⟨0, s4⟩
  exact claim_C1_window_budget 1 1000000000 [2000000001] _ 2000000001
    (by decide) (by decide) hreach

/-- Closed witness for `claim_C7_inner_cas_failure_fatal`: a concrete
configuration in which thread 0 holds a successful cursor CAS for slot 0
expecting 0, but the slot meanwhile holds `2·10^9`; its `assert(false)`
step leaves the shared state untouched and makes it `fatal`. -/
theorem claim_C7_witness :
    ({ cursor := 0, slots := [2000000000],
       threads := [TState.fatal 2000000001], log := [] } : Config).threads =
        ({ cursor := 0, slots := [2000000000],
           threads := [TState.casOk 2000000001 0 0 0], log := [] } : Config).threads.set 0
          (TState.fatal 2000000001) ∧
      ({ cursor := 0, slots := [2000000000],
         threads := [TState.fatal 2000000001], log := [] } : Config).slots =
        ({ cursor := 0, slots := [2000000000],
           threads := [TState.casOk 2000000001 0 0 0], log := [] } : Config).slots ∧
      ({ cursor := 0, slots := [2000000000],
         threads := [TState.fatal 2000000001], log := [] } : Config).cursor =
        ({ cursor := 0, slots := [2000000000],
           threads := [TState.casOk 2000000001 0 0 0], log := [] } : Config).cursor ∧
      ({ cursor := 0, slots := [2000000000],
         threads := [TState.fatal 2000000001], log := [] } : Config).log =
        ({ cursor := 0, slots := [2000000000],
           threads := [TState.casOk 2000000001 0 0 0], log := [] } : Config).log :=
  (claim_C7_inner_cas_failure_fatal 1 1000000000).1
    { cursor := 0, slots := [2000000000],
      threads := [TState.casOk 2000000001 0 0 0], log := [] }
    { cursor := 0, slots := [2000000000],
      threads := [TState.fatal 2000000001], log := [] }
    0 2000000001 0 0 0 (by decide) (by decide)
    (Step.casSlotFail _ 0 2000000001 0 0 0 (by decide) (by decide))

end ThrottleConc

namespace ThrottleConc

/-- The `assert(false)` path is reachable under contention: with capacity
1, caller B completes a full admission between caller A's slot load and
A's cursor CAS; since the cursor is stored modulo `N`, it has returned
to A's expected value (an ABA), A's cursor CAS succeeds, and A's
timestamp CAS then fails — A ends `fatal`.  So the spec's exclusivity
reasoning ("this must never happen") does not actually hold of this
implementation; the fatality contract of claim C7 is what remains. -/
theorem fatal_reachable :
    Reachable 1 1000000000 (init 1 [2000000001, 2000000002])
      { cursor := 0, slots := [2000000002],
        threads := [TState.fatal 2000000001, TState.done 2000000002 0],
        log := [(0, 2000000002)] } := by
  have s1 : Step 1 1000000000 (init 1 [2000000001, 2000000002]) 0
      { cursor := 0, slots := [0],
        threads := [TState.loadedCursor 2000000001 0 0, TState.start 2000000002 0],
        log := [] } :=
    Step.loadCursor _ 0 2000000001 0 (by decide) (by decide)
  have s2 : Step 1 1000000000
      { cursor := 0, slots := [0],
        threads := [TState.loadedCursor 2000000001 0 0, TState.start 2000000002 0],
        log := [] } 0
      { cursor := 0, slots := [0],
        threads := [TState.loadedSlot 2000000001 0 0 0, TState.start 2000000002 0],
        log := [] } :=
    Step.loadSlot _ 0 2000000001 0 0 (by decide)
  have s3 : Step 1 1000000000
      { cursor := 0, slots := [0],
        threads := [TState.loadedSlot 2000000001 0 0 0, TState.start 2000000002 0],
        log := [] } 1
      { cursor := 0, slots := [0],
        threads := [TState.loadedSlot 2000000001 0 0 0, TState.loadedCursor 2000000002 0 0],
        log := [] } :=
    Step.loadCursor _ 1 2000000002 0 (by decide) (by decide)
  have s4 : Step 1 1000000000
      { cursor := 0, slots := [0],
        threads := [TState.loadedSlot 2000000001 0 0 0, TState.loadedCursor 2000000002 0 0],
        log := [] } 1
      { cursor := 0, slots := [0],
        threads := [TState.loadedSlot 2000000001 0 0 0, TState.loadedSlot 2000000002 0 0 0],
        log := [] } :=
    Step.loadSlot _ 1 2000000002 0 0 (by decide)
  have s5 : Step 1 1000000000
      { cursor := 0, slots := [0],
        threads := [TState.loadedSlot 2000000001 0 0 0, TState.loadedSlot 2000000002 0 0 0],
        log := [] } 1
      { cursor := 0, slots := [0],
        threads := [TState.loadedSlot 2000000001 0 0 0, TState.casOk 2000000002 0 0 0],
        log := [] } :=
    Step.casCursorOk _ 1 2000000002 0 0 0 (by decide) (by decide) (by decide)
  have s6 : Step 1 1000000000
      { cursor := 0, slots := [0],
        threads := [TState.loadedSlot 2000000001 0 0 0, TState.casOk 2000000002 0 0 0],
        log := [] } 1
      { cursor := 0, slots := [2000000002],
        threads := [TState.loadedSlot 2000000001 0 0 0, TState.done 2000000002 0],
        log := [(0, 2000000002)] } :=
    Step.casSlotOk _ 1 2000000002 0 0 0 (by decide) (by decide)
  have s7 : Step 1 1000000000
      { cursor := 0, slots := [2000000002],
        threads := [TState.loadedSlot 2000000001 0 0 0, TState.done 2000000002 0],
        log := [(0, 2000000002)] } 0
      { cursor := 0, slots := [2000000002],
        threads := [TState.casOk 2000000001 0 0 0, TState.done 2000000002 0],
        log := [(0, 2000000002)] } :=
    Step.casCursorOk _ 0 2000000001 0 0 0 (by decide) (by decide) (by decide)
  have s8 : Step 1 1000000000
      { cursor := 0, slots := [2000000002],
        threads := [TState.casOk 2000000001 0 0 0, TState.done 2000000002 0],
        log := [(0, 2000000002)] } 0
      { cursor := 0, slots := [2000000002],
        threads := [TState.fatal 2000000001, TState.done 2000000002 0],
        log := [(0, 2000000002)] } :=
    Step.casSlotFail _ 0 2000000001 0 0 0 (by decide) (by decide)
  exact Relation.ReflTransGen.tail (Relation.ReflTransGen.tail (Relation.ReflTransGen.tail
    (Relation.ReflTransGen.tail (Relation.ReflTransGen.tail (Relation.ReflTransGen.tail
      (Relation.ReflTransGen.tail (Relation.ReflTransGen.single ⟨0, s1⟩)
        ⟨0, s2⟩) ⟨1, s3⟩) ⟨1, s4⟩) ⟨1, s5⟩) ⟨1, s6⟩) ⟨0, s7⟩) ⟨0, s8⟩

end ThrottleConc
